import Mathlib

/-!
Verification of the techshell command interpreter (src/techshell.c).

The embedding translates the C source shallowly:
- `tokenize` models `strtok(input, " \n")` driven to exhaustion: the line is
  split on runs of spaces and newlines and empty tokens are never produced.
- `parseLoop` / `parseInput` model `parseInput`: the token-by-token loop that
  classifies `<` and `>` as redirection operators, consumes their following
  token as the redirect path, and appends every other token to the argument
  list.  The C fixed-capacity array `char *args[MAX_ARGS]` is modelled as a
  Lean list; the index of each write the C code performs is recoverable as
  the position in that list (the terminating NULL is written at index
  `args.length`).
- `executeCommand` models `executeCommand`: the OS facilities it calls
  (`chdir`, `open`, `fork`, `execvp`, `strerror`) are an explicit `SysModel`
  parameter, and the observable effects of one execution (messages printed,
  working-directory change, fork, files opened by the child, the program the
  child finally runs) are collected in an `ExecResult` trace record.
- `loopIteration` models one pass of the `main` read-parse-execute loop after
  a line has been read.
-/

namespace Techshell

/-- C macro `MAX_INPUT` (line 15): size of the input buffer handed to fgets. -/
def MAX_INPUT : Nat := 1024

/-- C macro `MAX_ARGS` (line 16): capacity of the `args` array. -/
def MAX_ARGS : Nat := 100

/-- C `struct ShellCommand` (lines 25-30).  The NULL-terminated `args` array
is a Lean list; the optional `inputFile` / `outputFile` pointers are options. -/
structure ShellCommand where
  args : List String
  inputFile : Option String
  outputFile : Option String
deriving DecidableEq, Repr

/-- The delimiter set of `strtok(input, " \n")`: space and newline. -/
def isSep (c : Char) : Bool := c = ' ' || c = '\n'

/-- Driving `strtok` to exhaustion: split the character list on runs of
separators, producing the non-empty maximal runs of non-separators.
`cur` accumulates the current token in reverse. -/
def tokenizeAux : List Char → List Char → List String
  | [], [] => []
  | [], cur => [String.mk cur.reverse]
  | c :: cs, cur =>
    if isSep c then
      match cur with
      | [] => tokenizeAux cs []
      | _ => String.mk cur.reverse :: tokenizeAux cs []
    else
      tokenizeAux cs (c :: cur)

/-- The token sequence `strtok(input, " \n")` yields for a whole line. -/
def tokenize (s : String) : List String := tokenizeAux s.toList []

/-- The `while (token != NULL)` loop of C `parseInput` (lines 102-123).
`acc` is the prefix of `args` already written, `inF` / `outF` the current
`inputFile` / `outputFile`.  A `<` or `>` consumes the following token as the
redirect path; when no token follows, the C code stores the NULL cursor in the
redirect field (modelled as `none`) and the loop ends. -/
def parseLoop : List String → List String → Option String → Option String → ShellCommand
  | [], acc, inF, outF => { args := acc, inputFile := inF, outputFile := outF }
  | t :: rest, acc, inF, outF =>
    if t = "<" then
      match rest with
      | [] => { args := acc, inputFile := none, outputFile := outF }
      | p :: rest2 => parseLoop rest2 acc (some p) outF
    else if t = ">" then
      match rest with
      | [] => { args := acc, inputFile := inF, outputFile := none }
      | p :: rest2 => parseLoop rest2 acc inF (some p)
    else
      parseLoop rest (acc ++ [t]) inF outF

/-- C `parseInput` applied to an already-tokenized line. -/
def parseTokens (ts : List String) : ShellCommand := parseLoop ts [] none none

/-- C `parseInput` (lines 90-129): tokenize the line and run the parse loop.
Both redirect fields start as NULL (lines 94-95). -/
def parseInput (s : String) : ShellCommand := parseTokens (tokenize s)

/-- The OS facilities `executeCommand` calls, made an explicit parameter.
`chdir` receives the current directory and the target and either succeeds
with the new directory or fails with an errno; `openRead` / `openWrite`
model `open` with `O_RDONLY` and `O_WRONLY|O_CREAT|O_TRUNC`; `execvp`
returns `none` on success (the child is replaced) or the errno of the
failure; `fork` is `none` on success or the errno when fork fails;
`strerror` maps an errno to its description. -/
structure SysModel where
  chdir : String → String → Except Nat String
  strerror : Nat → String
  openRead : String → Except Nat Unit
  openWrite : String → Except Nat Unit
  execvp : String → List String → Option Nat
  fork : Option Nat

/-- Observable effects of one `executeCommand` call (parent and child
together): final working directory, the lines printed to stdout and stderr,
whether the interpreter was terminated by the `exit` built-in, whether a
child process was created, the files the child opened for reading and for
writing/creation, and the external program the child was replaced by (with
its argument vector) when `execvp` succeeded.  Each message entry is one
printed line, without its terminating newline. -/
structure ExecResult where
  cwd : String
  stdoutMsgs : List String
  stderrMsgs : List String
  exitedShell : Bool
  forked : Bool
  openedForRead : List String
  openedForWrite : List String
  ranProgram : Option (String × List String)
deriving DecidableEq, Repr

/-- The effect record of an execution that did nothing at all. -/
def noEffects (cwd : String) : ExecResult :=
  { cwd := cwd, stdoutMsgs := [], stderrMsgs := [], exitedShell := false,
    forked := false, openedForRead := [], openedForWrite := [],
    ranProgram := none }

/-- The line printed by C statements of the form
`printf("Error %d (%s)\n", errno, strerror(errno))`. -/
def errMsg (sys : SysModel) (e : Nat) : String :=
  "Error " ++ toString e ++ " (" ++ sys.strerror e ++ ")"

/-- Child step 3: `execvp(command.args[0], command.args)` (lines 216-220).
On failure the child prints the error line; on success the child becomes the
requested program. -/
def childExec (sys : SysModel) (cmd : ShellCommand) (r : ExecResult) : ExecResult :=
  match cmd.args with
  | [] => r
  | prog :: _ =>
    match sys.execvp prog cmd.args with
    | none => { r with ranProgram := some (prog, cmd.args) }
    | some e => { r with stdoutMsgs := r.stdoutMsgs ++ [errMsg sys e] }

/-- Child step 2: output redirection (lines 198-213).  When `outputFile` is
set the child opens/creates it for writing; on failure it prints the error
line and exits without reaching `execvp`. -/
def childOutput (sys : SysModel) (cmd : ShellCommand) (r : ExecResult) : ExecResult :=
  match cmd.outputFile with
  | none => childExec sys cmd r
  | some f =>
    match sys.openWrite f with
    | Except.error e => { r with stdoutMsgs := r.stdoutMsgs ++ [errMsg sys e] }
    | Except.ok _ => childExec sys cmd { r with openedForWrite := r.openedForWrite ++ [f] }

/-- Child step 1: input redirection (lines 182-195).  When `inputFile` is
set the child opens it read-only; on failure it prints the error line and
exits without opening the output file or reaching `execvp`. -/
def childInput (sys : SysModel) (cmd : ShellCommand) (r : ExecResult) : ExecResult :=
  match cmd.inputFile with
  | none => childOutput sys cmd r
  | some f =>
    match sys.openRead f with
    | Except.error e => { r with stdoutMsgs := r.stdoutMsgs ++ [errMsg sys e] }
    | Except.ok _ => childOutput sys cmd { r with openedForRead := r.openedForRead ++ [f] }

/-- C `executeCommand` (lines 136-230).  An empty command does nothing
(lines 139-140); `exit` terminates the interpreter (lines 145-146); `cd`
with no argument prints `cd: missing argument` to stderr, and `cd dir`
either changes the working directory or prints the errno line to stdout
(lines 151-163); everything else forks (printing `fork: <description>` to
stderr if fork fails, as `perror` does) and runs the child redirection and
`execvp` sequence, the parent waiting for the child. -/
def executeCommand (sys : SysModel) (cwd : String) (cmd : ShellCommand) : ExecResult :=
  match cmd.args with
  | [] => noEffects cwd
  | a0 :: rest =>
    if a0 = "exit" then { noEffects cwd with exitedShell := true }
    else if a0 = "cd" then
      match rest with
      | [] => { noEffects cwd with stderrMsgs := ["cd: missing argument"] }
      | d :: _ =>
        match sys.chdir cwd d with
        | Except.ok newCwd => { noEffects cwd with cwd := newCwd }
        | Except.error e => { noEffects cwd with stdoutMsgs := [errMsg sys e] }
    else
      match sys.fork with
      | some e => { noEffects cwd with stderrMsgs := ["fork: " ++ sys.strerror e] }
      | none => childInput sys cmd { noEffects cwd with forked := true }

/-- One pass of the `main` loop (lines 240-265) after a line has been read:
a line that is exactly `"\n"` is skipped (lines 251-255); otherwise the line
is parsed and executed. -/
def loopIteration (sys : SysModel) (cwd : String) (line : String) : ExecResult :=
  if line = "\n" then noEffects cwd
  else executeCommand sys cwd (parseInput line)

/-- Transcription of the parser contract of spec section 4.2, threading the
Command state left to right over the tokens: a token `<` consumes the next
token as `input_redirect` (recording missing when none follows), a token `>`
consumes the next token as `output_redirect` likewise, and every other token
is appended to `arguments` in order; a later redirect silently overwrites an
earlier one (spec section 3). -/
def specParseAux : List String → ShellCommand → ShellCommand
  | [], c => c
  | t :: rest, c =>
    if t = "<" then
      match rest with
      | [] => { c with inputFile := none }
      | q :: rest2 => specParseAux rest2 { c with inputFile := some q }
    else if t = ">" then
      match rest with
      | [] => { c with outputFile := none }
      | q :: rest2 => specParseAux rest2 { c with outputFile := some q }
    else
      specParseAux rest { c with args := c.args ++ [t] }

/-- The spec section 4.2 parser run from the empty Command. -/
def specParse (ts : List String) : ShellCommand :=
  specParseAux ts { args := [], inputFile := none, outputFile := none }

/-- The argument tokens of a token sequence: tokens that are neither a
redirection operator nor consumed as a redirect path, in order. -/
def collectArgs : List String → List String
  | [] => []
  | t :: rest =>
    if t = "<" ∨ t = ">" then
      match rest with
      | [] => []
      | _ :: rest2 => collectArgs rest2
    else
      t :: collectArgs rest

/-- Every token of the sequence is a redirection operator or a token consumed
as a redirect path, so none is left for the argument list. -/
def allConsumed : List String → Bool
  | [] => true
  | t :: rest =>
    if t = "<" ∨ t = ">" then
      match rest with
      | [] => true
      | _ :: rest2 => allConsumed rest2
    else
      false

/-- The final token of the sequence equals `op` and is scanned in operator
position (not consumed as the redirect path of a preceding operator), with no
token following it: a trailing bare redirection operator. -/
def finalIsBareOp (op : String) : List String → Bool
  | [] => false
  | t :: rest =>
    if t = "<" ∨ t = ">" then
      match rest with
      | [] => t = op
      | _ :: rest2 => finalIsBareOp op rest2
    else
      finalIsBareOp op rest

theorem parseLoop_cons_arg (t : String) (rest acc : List String)
    (inF outF : Option String) (ht : t ≠ "<") (hgt : t ≠ ">") :
    parseLoop (t :: rest) acc inF outF = parseLoop rest (acc ++ [t]) inF outF := by
  rw [parseLoop.eq_def]
  simp only [if_neg ht, if_neg hgt]

theorem collectArgs_cons_arg (t : String) (rest : List String)
    (ht : t ≠ "<") (hgt : t ≠ ">") :
    collectArgs (t :: rest) = t :: collectArgs rest := by
  conv_lhs => rw [collectArgs.eq_def]
  simp [ht, hgt]

theorem allConsumed_cons_arg (t : String) (rest : List String)
    (ht : t ≠ "<") (hgt : t ≠ ">") :
    allConsumed (t :: rest) = false := by
  conv_lhs => rw [allConsumed.eq_def]
  simp [ht, hgt]

theorem finalIsBareOp_cons_arg (op t : String) (rest : List String)
    (ht : t ≠ "<") (hgt : t ≠ ">") :
    finalIsBareOp op (t :: rest) = finalIsBareOp op rest := by
  conv_lhs => rw [finalIsBareOp.eq_def]
  simp [ht, hgt]

/-- The argument list produced by the parse loop is the already-written
prefix followed by the argument tokens of the remaining token sequence. -/
theorem parseLoop_args (ts acc : List String) (inF outF : Option String) :
    (parseLoop ts acc inF outF).args = acc ++ collectArgs ts := by
  induction ts, acc, inF, outF using parseLoop.induct with
  | case6 t rest acc inF outF ht hgt ih =>
    rw [parseLoop_cons_arg t rest acc inF outF ht hgt, ih,
      collectArgs_cons_arg t rest ht hgt]
    simp
  | _ => simp_all [parseLoop, collectArgs]

/-- No argument token is left over exactly when `allConsumed` holds. -/
theorem collectArgs_eq_nil_iff (ts : List String) :
    collectArgs ts = [] ↔ allConsumed ts = true := by
  induction ts using collectArgs.induct with
  | case4 t rest h ih =>
    push_neg at h
    rw [collectArgs_cons_arg t rest h.1 h.2, allConsumed_cons_arg t rest h.1 h.2]
    simp
  | _ => simp_all [collectArgs, allConsumed]

/-- A parsed line has an empty argument list exactly when every token of the
line is a redirection operator or a consumed redirect path. -/
theorem parseInput_args_nil_iff (line : String) :
    (parseInput line).args = [] ↔ allConsumed (tokenize line) = true := by
  unfold parseInput parseTokens
  rw [parseLoop_args]
  simpa using collectArgs_eq_nil_iff (tokenize line)

/-- When the token sequence ends in a bare `<` scanned in operator position,
the parse loop leaves `inputFile` as NULL, whatever it held before. -/
theorem parseLoop_bare_in (ts acc : List String) (inF outF : Option String)
    (h : finalIsBareOp "<" ts = true) :
    (parseLoop ts acc inF outF).inputFile = none := by
  induction ts, acc, inF, outF using parseLoop.induct with
  | case1 acc inF outF => simp [finalIsBareOp] at h
  | case2 acc inF outF => rfl
  | case3 acc inF outF p rest2 ih =>
    exact ih (by simpa [finalIsBareOp] using h)
  | case4 acc inF outF hne => simp [finalIsBareOp] at h
  | case5 acc inF outF p rest2 hne ih =>
    exact ih (by simpa [finalIsBareOp] using h)
  | case6 t rest acc inF outF ht hgt ih =>
    rw [parseLoop_cons_arg t rest acc inF outF ht hgt]
    exact ih (by rwa [finalIsBareOp_cons_arg "<" t rest ht hgt] at h)

/-- When the token sequence ends in a bare `>` scanned in operator position,
the parse loop leaves `outputFile` as NULL, whatever it held before. -/
theorem parseLoop_bare_out (ts acc : List String) (inF outF : Option String)
    (h : finalIsBareOp ">" ts = true) :
    (parseLoop ts acc inF outF).outputFile = none := by
  induction ts, acc, inF, outF using parseLoop.induct with
  | case1 acc inF outF => simp [finalIsBareOp] at h
  | case2 acc inF outF => simp [finalIsBareOp] at h
  | case3 acc inF outF p rest2 ih =>
    exact ih (by simpa [finalIsBareOp] using h)
  | case4 acc inF outF hne => rfl
  | case5 acc inF outF p rest2 hne ih =>
    exact ih (by simpa [finalIsBareOp] using h)
  | case6 t rest acc inF outF ht hgt ih =>
    rw [parseLoop_cons_arg t rest acc inF outF ht hgt]
    exact ih (by rwa [finalIsBareOp_cons_arg ">" t rest ht hgt] at h)

theorem parseLoop_in_step (q : String) (ts acc : List String) (inF outF : Option String) :
    parseLoop ("<" :: q :: ts) acc inF outF = parseLoop ts acc (some q) outF := rfl

theorem parseLoop_out_step (q : String) (ts acc : List String) (inF outF : Option String) :
    parseLoop (">" :: q :: ts) acc inF outF = parseLoop ts acc inF (some q) := rfl

/-- Appending `< p` (resp. `> p`) after tokens that do not end in an operator
makes `p` the final redirect path, regardless of any earlier redirects in
`ts` and of the redirect state `inF` / `outF` accumulated so far: the last
occurrence wins. -/
theorem parseLoop_append_redirect : ∀ (n : Nat) (ts : List String) (p : String)
    (acc : List String) (inF outF : Option String), ts.length ≤ n →
    ts.getLast? ≠ some "<" → ts.getLast? ≠ some ">" →
    (parseLoop (ts ++ ["<", p]) acc inF outF).inputFile = some p ∧
    (parseLoop (ts ++ [">", p]) acc inF outF).outputFile = some p := by
  intro n
  induction n with
  | zero =>
    intro ts p acc inF outF hlen h1 h2
    have hts : ts = [] := List.eq_nil_of_length_eq_zero (Nat.le_zero.mp hlen)
    subst hts
    exact ⟨rfl, rfl⟩
  | succ n ih =>
    intro ts p acc inF outF hlen h1 h2
    obtain _ | ⟨t, _ | ⟨u, rest⟩⟩ := ts
    · exact ⟨rfl, rfl⟩
    · have ht : t ≠ "<" := by simpa using h1
      have hgt : t ≠ ">" := by simpa using h2
      refine ⟨?_, ?_⟩ <;>
        · simp only [List.cons_append, List.nil_append]
          rw [parseLoop_cons_arg t _ acc inF outF ht hgt]
          rfl
    · have hlen2 : rest.length ≤ n := by simp at hlen; omega
      have hlen1 : (u :: rest).length ≤ n := by
        simp only [List.length_cons] at hlen ⊢; omega
      rw [List.getLast?_cons_cons] at h1 h2
      by_cases ht : t = "<"
      · subst ht
        have h1r : rest.getLast? ≠ some "<" := by
          cases rest with
          | nil => simp
          | cons v r => rwa [List.getLast?_cons_cons] at h1
        have h2r : rest.getLast? ≠ some ">" := by
          cases rest with
          | nil => simp
          | cons v r => rwa [List.getLast?_cons_cons] at h2
        constructor
        · have hr := (ih rest p acc (some u) outF hlen2 h1r h2r).1
          simpa only [List.cons_append, parseLoop_in_step] using hr
        · have hr := (ih rest p acc (some u) outF hlen2 h1r h2r).2
          simpa only [List.cons_append, parseLoop_in_step] using hr
      · by_cases hgt : t = ">"
        · subst hgt
          have h1r : rest.getLast? ≠ some "<" := by
            cases rest with
            | nil => simp
            | cons v r => rwa [List.getLast?_cons_cons] at h1
          have h2r : rest.getLast? ≠ some ">" := by
            cases rest with
            | nil => simp
            | cons v r => rwa [List.getLast?_cons_cons] at h2
          constructor
          · have hr := (ih rest p acc inF (some u) hlen2 h1r h2r).1
            simpa only [List.cons_append, parseLoop_out_step] using hr
          · have hr := (ih rest p acc inF (some u) hlen2 h1r h2r).2
            simpa only [List.cons_append, parseLoop_out_step] using hr
        · constructor
          · have hr := (ih (u :: rest) p (acc ++ [t]) inF outF hlen1 h1 h2).1
            rw [List.cons_append, parseLoop_cons_arg t _ acc inF outF ht hgt]
            exact hr
          · have hr := (ih (u :: rest) p (acc ++ [t]) inF outF hlen1 h1 h2).2
            rw [List.cons_append, parseLoop_cons_arg t _ acc inF outF ht hgt]
            exact hr

/-- The spec section 4.2 parser and the C parse loop agree from any starting
state. -/
theorem specParseAux_eq_parseLoop (ts : List String) (c : ShellCommand) :
    specParseAux ts c = parseLoop ts c.args c.inputFile c.outputFile := by
  induction ts, c using specParseAux.induct with
  | case3 c p rest2 ih => exact ih
  | case5 c p rest2 hne ih => exact ih
  | case6 t rest c ht hgt ih =>
    conv_lhs => rw [specParseAux.eq_def]
    simp only [if_neg ht, if_neg hgt]
    rw [parseLoop_cons_arg t rest c.args c.inputFile c.outputFile ht hgt]
    exact ih
  | _ => rfl

/-- A line of separators only tokenizes to the empty token sequence. -/
theorem tokenizeAux_sep (cs : List Char) (h : cs.all isSep = true) :
    tokenizeAux cs [] = [] := by
  induction cs with
  | nil => rfl
  | cons c cs ih =>
    rw [List.all_cons, Bool.and_eq_true] at h
    rw [tokenizeAux, if_pos h.1]
    exact ih h.2

theorem childExec_read (sys : SysModel) (cmd : ShellCommand) (r : ExecResult) :
    (childExec sys cmd r).openedForRead = r.openedForRead := by
  unfold childExec
  split
  · rfl
  · split <;> rfl

theorem childExec_write (sys : SysModel) (cmd : ShellCommand) (r : ExecResult) :
    (childExec sys cmd r).openedForWrite = r.openedForWrite := by
  unfold childExec
  split
  · rfl
  · split <;> rfl

theorem childOutput_read (sys : SysModel) (cmd : ShellCommand) (r : ExecResult) :
    (childOutput sys cmd r).openedForRead = r.openedForRead := by
  unfold childOutput
  split
  · exact childExec_read sys cmd r
  · split
    · rfl
    · rw [childExec_read]

theorem childOutput_write_none (sys : SysModel) (cmd : ShellCommand) (r : ExecResult)
    (h : cmd.outputFile = none) :
    (childOutput sys cmd r).openedForWrite = r.openedForWrite := by
  unfold childOutput
  rw [h]
  exact childExec_write sys cmd r

theorem childInput_read_none (sys : SysModel) (cmd : ShellCommand) (r : ExecResult)
    (h : cmd.inputFile = none) :
    (childInput sys cmd r).openedForRead = r.openedForRead := by
  unfold childInput
  rw [h]
  exact childOutput_read sys cmd r

theorem childInput_write_none (sys : SysModel) (cmd : ShellCommand) (r : ExecResult)
    (h : cmd.outputFile = none) :
    (childInput sys cmd r).openedForWrite = r.openedForWrite := by
  unfold childInput
  split
  · exact childOutput_write_none sys cmd r h
  · split
    · rfl
    · rw [childOutput_write_none _ _ _ h]

/-- A command whose `inputFile` is NULL never causes a file to be opened for
reading: execution treats it as no input redirect requested. -/
theorem executeCommand_read_none (sys : SysModel) (cwd : String) (cmd : ShellCommand)
    (h : cmd.inputFile = none) :
    (executeCommand sys cwd cmd).openedForRead = [] := by
  unfold executeCommand
  split
  · rfl
  · split
    · rfl
    · split
      · split
        · rfl
        · split <;> rfl
      · split
        · rfl
        · rw [childInput_read_none _ _ _ h]
          rfl

/-- A command whose `outputFile` is NULL never causes a file to be opened or
created for writing: execution treats it as no output redirect requested. -/
theorem executeCommand_write_none (sys : SysModel) (cwd : String) (cmd : ShellCommand)
    (h : cmd.outputFile = none) :
    (executeCommand sys cwd cmd).openedForWrite = [] := by
  unfold executeCommand
  split
  · rfl
  · split
    · rfl
    · split
      · split
        · rfl
        · split <;> rfl
      · split
        · rfl
        · rw [childInput_write_none _ _ _ h]
          rfl

/-- A concrete system model for closed instances: `chdir` and `openRead`
always fail with errno 2 (whose description is the POSIX text for ENOENT),
`openWrite`, `execvp` and `fork` succeed. -/
def sysDemo : SysModel :=
  { chdir := fun _ _ => Except.error 2
  , strerror := fun e => if e = 2 then "No such file or directory" else "unknown error"
  , openRead := fun _ => Except.error 2
  , openWrite := fun _ => Except.ok ()
  , execvp := fun _ _ => none
  , fork := none }

/-- A line of one hundred space-separated tokens `a` followed by a newline:
200 characters, so it fits the 1024-byte fgets buffer. -/
def overflowLine : String :=
  "a a a a a a a a a a a a a a a a a a a a a a a a a a a a a a a a a a a a a a a a a a a a a a a a a a a a a a a a a a a a a a a a a a a a a a a a a a a a a a a a a a a a a a a a a a a a a a a a a a a a\n"

/-- C1: for every input line, the parser splits the line into
whitespace-delimited tokens and builds the Command exactly as the spec
section 4.2 contract describes (transcribed as `specParse`): a token `<`
consumes the next token as `input_redirect`, a token `>` consumes the next
token as `output_redirect`, every other token is appended to `arguments` in
its original order, consumed redirect paths never reach `arguments`, and
parsing is total, producing a Command for every input line. -/
theorem c1_parse_follows_spec (line : String) :
    parseInput line = specParse (tokenize line) := by
  unfold parseInput parseTokens specParse
  exact (specParseAux_eq_parseLoop (tokenize line)
    { args := [], inputFile := none, outputFile := none }).symm

/-- C2: executing a Command whose argument list is exactly `cd` (no second
argument) prints exactly `cd: missing argument` on standard error and has no
other effect: the working directory is unchanged, nothing is printed on
stdout, the interpreter does not exit, no process is created and no file is
opened. -/
theorem c2_cd_missing_argument (sys : SysModel) (cwd : String) (cmd : ShellCommand)
    (h : cmd.args = ["cd"]) :
    executeCommand sys cwd cmd =
      { noEffects cwd with stderrMsgs := ["cd: missing argument"] } := by
  obtain ⟨a, iF, oF⟩ := cmd
  have h2 : a = ["cd"] := h
  subst h2
  rfl

theorem c2_witness :
    executeCommand sysDemo "/home" { args := ["cd"], inputFile := none, outputFile := none } =
      { noEffects "/home" with stderrMsgs := ["cd: missing argument"] } :=
  c2_cd_missing_argument sysDemo "/home" _ rfl

/-- C3: executing a Command whose arguments start with `cd dir` when the
directory change fails with errno `e` prints exactly
`Error <e> (<strerror e>)` and has no other effect: the working directory is
unchanged and the interpreter does not exit. -/
theorem c3_cd_failure (sys : SysModel) (cwd : String) (cmd : ShellCommand)
    (d : String) (rest : List String) (e : Nat)
    (h : cmd.args = "cd" :: d :: rest)
    (hc : sys.chdir cwd d = Except.error e) :
    executeCommand sys cwd cmd =
      { noEffects cwd with
          stdoutMsgs := ["Error " ++ toString e ++ " (" ++ sys.strerror e ++ ")"] } := by
  obtain ⟨a, iF, oF⟩ := cmd
  have h2 : a = "cd" :: d :: rest := h
  subst h2
  unfold executeCommand
  simp [hc, errMsg]

theorem c3_witness :
    sysDemo.chdir "/home" "/nonexistent" = Except.error 2 ∧
    executeCommand sysDemo "/home"
        { args := ["cd", "/nonexistent"], inputFile := none, outputFile := none } =
      { noEffects "/home" with stdoutMsgs := ["Error 2 (No such file or directory)"] } :=
  ⟨rfl, c3_cd_failure sysDemo "/home" _ "/nonexistent" [] 2 rfl rfl⟩

/-- C4: a line consisting only of the tokenizer's separator characters
(spaces and newlines) makes one loop pass perform no execution at all: no
built-in effect, no process creation, no file open, no output, and the loop
returns to the prompt with the working directory unchanged. -/
theorem c4_blank_line_no_action (sys : SysModel) (cwd : String) (line : String)
    (h : line.toList.all isSep = true) :
    loopIteration sys cwd line = noEffects cwd := by
  unfold loopIteration
  split
  · rfl
  · have ht : tokenize line = [] := tokenizeAux_sep line.toList h
    unfold parseInput parseTokens
    rw [ht]
    rfl

theorem c4_witness :
    (("  \x20\n").toList.all isSep = true) ∧
    loopIteration sysDemo "/tmp" "  \x20\n" = noEffects "/tmp" :=
  ⟨by decide, c4_blank_line_no_action sysDemo "/tmp" "  \x20\n" (by decide)⟩

/-- C5 as stated is false: the line `> out.txt` contains non-separator
characters, yet its parsed Command has an empty argument list, because both
its tokens are consumed as the redirection operator and its path. -/
theorem c5_counterexample :
    (parseInput "> out.txt").args = [] ∧
    ("> out.txt").toList.all isSep = false := by
  decide

/-- C5 (amended): the parsed argument list is empty exactly when every token
of the line is a redirection operator or a token consumed as a redirect
path; in particular a blank or whitespace-only line (which has no tokens)
yields an empty argument list, and an empty Command performs no action. -/
theorem c5_args_empty_iff (line : String) :
    (parseInput line).args = [] ↔ allConsumed (tokenize line) = true :=
  parseInput_args_nil_iff line

/-- C6: a line whose final token is a bare `<` (resp. `>`) reached in
operator position with no token following parses without faulting, records
the input (resp. output) redirect field as absent, and execution treats it
as no redirect requested: no file is opened for reading (resp. writing). -/
theorem c6_trailing_bare_operator (lineA lineB : String) (sys : SysModel) (cwd : String)
    (hA : finalIsBareOp "<" (tokenize lineA) = true)
    (hB : finalIsBareOp ">" (tokenize lineB) = true) :
    (parseInput lineA).inputFile = none ∧
    (parseInput lineB).outputFile = none ∧
    (executeCommand sys cwd (parseInput lineA)).openedForRead = [] ∧
    (executeCommand sys cwd (parseInput lineB)).openedForWrite = [] := by
  have h1 : (parseInput lineA).inputFile = none :=
    parseLoop_bare_in (tokenize lineA) [] none none hA
  have h2 : (parseInput lineB).outputFile = none :=
    parseLoop_bare_out (tokenize lineB) [] none none hB
  exact ⟨h1, h2, executeCommand_read_none sys cwd _ h1,
    executeCommand_write_none sys cwd _ h2⟩

theorem c6_witness :
    finalIsBareOp "<" (tokenize "cat <") = true ∧
    finalIsBareOp ">" (tokenize "cat >") = true ∧
    (parseInput "cat <").inputFile = none ∧
    (parseInput "cat >").outputFile = none ∧
    (executeCommand sysDemo "/home" (parseInput "cat <")).openedForRead = [] ∧
    (executeCommand sysDemo "/home" (parseInput "cat >")).openedForWrite = [] := by
  have h := c6_trailing_bare_operator "cat <" "cat >" sysDemo "/home"
    (by decide) (by decide)
  exact ⟨by decide, by decide, h.1, h.2.1, h.2.2.1, h.2.2.2⟩

/-- C7: when the tokens of a line end with `< p` (resp. `> p`) and the token
before that operator is not itself an operator (so the final `<` or `>` is
scanned in operator position), the parsed `inputFile` (resp. `outputFile`)
is `p`, whatever redirects occurred earlier in the line: a second occurrence
silently overwrites the first, with no duplicate-detection error. -/
theorem c7_last_redirect_wins (lineA lineB : String) (tsA tsB : List String)
    (pA pB : String)
    (hA : tokenize lineA = tsA ++ ["<", pA])
    (hA1 : tsA.getLast? ≠ some "<") (hA2 : tsA.getLast? ≠ some ">")
    (hB : tokenize lineB = tsB ++ [">", pB])
    (hB1 : tsB.getLast? ≠ some "<") (hB2 : tsB.getLast? ≠ some ">") :
    (parseInput lineA).inputFile = some pA ∧
    (parseInput lineB).outputFile = some pB := by
  constructor
  · show (parseLoop (tokenize lineA) [] none none).inputFile = some pA
    rw [hA]
    exact (parseLoop_append_redirect tsA.length tsA pA [] none none
      le_rfl hA1 hA2).1
  · show (parseLoop (tokenize lineB) [] none none).outputFile = some pB
    rw [hB]
    exact (parseLoop_append_redirect tsB.length tsB pB [] none none
      le_rfl hB1 hB2).2

theorem c7_witness :
    (parseInput "cat < a < b").inputFile = some "b" ∧
    (parseInput "echo x > a > b").outputFile = some "b" :=
  c7_last_redirect_wins "cat < a < b" "echo x > a > b"
    ["cat", "<", "a"] ["echo", "x", ">", "a"] "b" "b"
    (by decide) (by decide) (by decide) (by decide) (by decide) (by decide)

/-- C8: parsing has no hidden state: the parsed Command is a function of the
token sequence alone, so two lines with the same tokens (in particular the
same line parsed twice) yield identical Commands, with the same arguments in
the same order and the same redirect fields. -/
theorem c8_parse_depends_only_on_tokens (s t : String)
    (h : tokenize s = tokenize t) :
    parseInput s = parseInput t := by
  unfold parseInput parseTokens
  rw [h]

theorem c8_witness :
    tokenize "echo  hi\n" = tokenize "echo hi" ∧
    parseInput "echo  hi\n" = parseInput "echo hi" :=
  ⟨by decide, c8_parse_depends_only_on_tokens "echo  hi\n" "echo hi" (by decide)⟩

set_option maxRecDepth 8192 in
/-- C9 fails on the code: `overflowLine` fits the 1024-byte input buffer
(fgets stores at most 1023 characters plus the terminator), yet parsing it
produces 100 argument tokens, written at indices 0..99, and the terminating
NULL of line 126 is then written at index 100 = MAX_ARGS, one past the end
of the 100-pointer `args` array: the `args[i++]` write of line 119 is never
bounds-checked against MAX_ARGS, contradicting the claim that no write falls
outside the array for any token count. -/
theorem c9_args_overflow :
    overflowLine.length + 1 ≤ MAX_INPUT ∧
    MAX_ARGS ≤ (parseInput overflowLine).args.length := by
  constructor
  · decide
  · decide

/-- C10: a line every one of whose tokens is a redirection operator or a
consumed redirect path (for example `> out.txt`) parses to a Command with an
empty argument list, and executing it performs no action at all: no process
is spawned, nothing is printed, and no file is opened, created or truncated,
even when an output redirect path was supplied. -/
theorem c10_redirect_only_line_no_action (sys : SysModel) (cwd : String) (line : String)
    (h : allConsumed (tokenize line) = true) :
    executeCommand sys cwd (parseInput line) = noEffects cwd := by
  have h0 : (parseInput line).args = [] := (parseInput_args_nil_iff line).mpr h
  unfold executeCommand
  rw [h0]

theorem c10_witness :
    (parseInput "> out.txt").outputFile = some "out.txt" ∧
    executeCommand sysDemo "/home" (parseInput "> out.txt") = noEffects "/home" :=
  ⟨by decide, c10_redirect_only_line_no_action sysDemo "/home" "> out.txt" (by decide)⟩

end Techshell
